import Mathlib

set_option maxRecDepth 10000

/-!
Verification of the ECM (Error Code Modeler) decoder `unecm.c`.

The C program is shallowly embedded: the 2352-byte sector buffer is a
function `Nat → Nat` (index to byte value), byte writes are explicit
function updates, machine integers are `Nat` with explicit `% 2^w`
(or `&&& 0xFF`) where a narrowing store occurs in C, file reads become
`List Nat` consumption, and fallible code returns `Except DecodeError`.
-/

namespace Unecm

/-- Pointwise update of a byte buffer: `upd f a v` is the buffer `f` with
position `a` overwritten by `v`, embedding a single C array store. -/
def upd (f : Nat → Nat) (a v : Nat) : Nat → Nat := fun x => if x = a then v else f x

/-- Embeds `memset(buf + off, v, len)`: every position in `[off, off+len)`
is set to `v`. -/
def setRange (buf : Nat → Nat) (off len v : Nat) : Nat → Nat :=
  fun k => if off ≤ k ∧ k < off + len then v else buf k

/-- Embeds `fread`/`memcpy` of `data.length` bytes into the buffer at
offset `off`. -/
def copyBytes (buf : Nat → Nat) (off : Nat) (data : List Nat) : Nat → Nat :=
  fun k => if off ≤ k ∧ k < off + data.length then data.getD (k - off) 0 else buf k

/-! ## Lookup tables (`eccedc_init`) -/

/-- The untruncated value `j = (i << 1) ^ (i & 0x80 ? 0x11D : 0)` computed in
the table-building loop of `eccedc_init`. -/
def eccFRaw (i : Nat) : Nat := (i <<< 1) ^^^ (if i &&& 0x80 ≠ 0 then 0x11D else 0)

/-- `ecc_f_lut[i] = j`: the store into the `ecc_uint8` array truncates to
8 bits. -/
def ecc_f_lut (i : Nat) : Nat := eccFRaw i % 256

/-- `ecc_b_lut`: the loop `for i in 0..255: ecc_b_lut[i ^ j] = i` starting
from a zero-initialized array, embedded as a fold of single stores. -/
def ecc_b_lut : Nat → Nat :=
  (List.range 256).foldl (fun t i => upd t (i ^^^ eccFRaw i) i) (fun _ => 0)

/-- One step of the EDC table feedback loop:
`edc = (edc >> 1) ^ (edc & 1 ? 0xD8018001 : 0)`. -/
def edcStep (e : Nat) : Nat := (e >>> 1) ^^^ (if e &&& 1 = 1 then 0xD8018001 else 0)

/-- `edc_lut[i]`: eight feedback steps applied to `i`. -/
def edc_lut (i : Nat) : Nat := edcStep^[8] i

/-! ## Checksum engine (`edc_partial_computeblock`, `edc_computeblock`) -/

/-- One byte of checksum accumulation:
`edc = (edc >> 8) ^ edc_lut[(edc ^ byte) & 0xFF]`. -/
def edcPartialStep (edc b : Nat) : Nat := (edc >>> 8) ^^^ edc_lut ((edc ^^^ b) &&& 0xFF)

/-- `edc_partial_computeblock(edc, src, size)`: fold the per-byte step over
the byte sequence. -/
def edc_partial_computeblock (edc : Nat) (src : List Nat) : Nat :=
  src.foldl edcPartialStep edc

/-- Byte `j` of the little-endian serialization of a 32-bit checksum,
as stored by `edc_computeblock`: `dest[j] = (edc >> 8*j) & 0xFF`. -/
def edcByteLE (edc j : Nat) : Nat := (edc >>> (8 * j)) &&& 0xFF

/-- `edc_computeblock(src, size, dest)` acting inside one buffer: computes
the EDC over `size` bytes starting at `srcOff` and stores the 4 bytes
little-endian at `destOff`. -/
def edc_computeblock (buf : Nat → Nat) (srcOff size destOff : Nat) : Nat → Nat :=
  let edc := edc_partial_computeblock 0 ((List.range size).map (fun i => buf (srcOff + i)))
  upd (upd (upd (upd buf
    destOff (edcByteLE edc 0))
    (destOff + 1) (edcByteLE edc 1))
    (destOff + 2) (edcByteLE edc 2))
    (destOff + 3) (edcByteLE edc 3)

/-! ## Parity engine (`ecc_computeblock`, `ecc_generate`) -/

/-- One iteration of the inner (`minor`) loop of `ecc_computeblock`, acting on
the state `(index, ecc_a, ecc_b)`:
read `temp = src[index]`; `index += minor_inc`; `if (index >= size) index -= size`;
`ecc_a ^= temp` (8-bit store); `ecc_b ^= temp` (8-bit store);
`ecc_a = ecc_f_lut[ecc_a]`. -/
def eccInnerStep (src : Nat → Nat) (size inc : Nat) (s : Nat × Nat × Nat) : Nat × Nat × Nat :=
  let temp := src s.1
  let index1 := s.1 + inc
  let index2 := if size ≤ index1 then index1 - size else index1
  (index2, ecc_f_lut ((s.2.1 ^^^ temp) &&& 0xFF), (s.2.2 ^^^ temp) &&& 0xFF)

/-- The inner loop of `ecc_computeblock` run for `n` iterations from the
starting index, with both accumulators starting at zero. -/
def eccInnerLoop (src : Nat → Nat) (size inc n idx0 : Nat) : Nat × Nat × Nat :=
  (eccInnerStep src size inc)^[n] (idx0, 0, 0)

/-- The two bytes produced for one `major` in `ecc_computeblock`:
after the inner loop, `ecc_a = ecc_b_lut[ecc_f_lut[ecc_a] ^ ecc_b]`, then
`dest[major] = ecc_a` and `dest[major + major_count] = ecc_a ^ ecc_b`. -/
def eccMajorResult (src : Nat → Nat) (size inc n idx0 : Nat) : Nat × Nat :=
  let s := eccInnerLoop src size inc n idx0
  let a := ecc_b_lut (ecc_f_lut s.2.1 ^^^ s.2.2)
  (a, a ^^^ s.2.2)

/-- The body of the outer (`major`) loop of `ecc_computeblock`: compute the
starting index `(major >> 1) * major_mult + (major & 1)`, run the inner loop
reading from the current buffer at offset `srcOff`, and store the two result
bytes at `destOff + major` and `destOff + major + major_count`. -/
def eccFoldStep (srcOff mc nc mult inc destOff : Nat) (b : Nat → Nat) (major : Nat) :
    Nat → Nat :=
  let r := eccMajorResult (fun i => b (srcOff + i)) (mc * nc) inc nc
      ((major / 2) * mult + major % 2)
  upd (upd b (destOff + major) r.1) (destOff + major + mc) r.2

/-- `ecc_computeblock(src, major_count, minor_count, major_mult, minor_inc, dest)`
acting inside one buffer: the outer loop over `major in 0..major_count`. -/
def ecc_computeblock (buf : Nat → Nat) (srcOff mc nc mult inc destOff : Nat) : Nat → Nat :=
  (List.range mc).foldl (eccFoldStep srcOff mc nc mult inc destOff) buf

/-- The save-and-zero of the 4 address bytes at the start of `ecc_generate`
when `zeroaddress` is set. -/
def zeroAddress (s : Nat → Nat) : Nat → Nat :=
  upd (upd (upd (upd s 12 0) 13 0) 14 0) 15 0

/-- The restore of the 4 saved address bytes at the end of `ecc_generate`
when `zeroaddress` is set (`orig` is the buffer from before the zeroing). -/
def restoreAddress (orig s : Nat → Nat) : Nat → Nat :=
  upd (upd (upd (upd s 12 (orig 12)) 13 (orig 13)) 14 (orig 14)) 15 (orig 15)

/-- `ecc_generate(sector, zeroaddress)`: optionally zero the address bytes,
compute the P code (86×24, mult 2, inc 86, dest `0x81C`) and the Q code
(52×43, mult 86, inc 88, dest `0x8C8`) over the region at offset `0xC`,
then optionally restore the address bytes. -/
def ecc_generate (sector : Nat → Nat) (zeroaddress : Bool) : Nat → Nat :=
  let s1 := if zeroaddress then zeroAddress sector else sector
  let s2 := ecc_computeblock s1 0xC 86 24 2 86 0x81C
  let s3 := ecc_computeblock s2 0xC 52 43 86 88 0x8C8
  if zeroaddress then restoreAddress sector s3 else s3

/-- `eccedc_generate(sector, type)`: mode-specific EDC/ECC generation. -/
def eccedc_generate (sector : Nat → Nat) (type : Nat) : Nat → Nat :=
  if type = 1 then
    let s1 := edc_computeblock sector 0x00 0x810 0x810
    let s2 := setRange s1 0x814 8 0
    ecc_generate s2 false
  else if type = 2 then
    ecc_generate (edc_computeblock sector 0x10 0x808 0x818) true
  else if type = 3 then
    edc_computeblock sector 0x10 0x91C 0x92C
  else sector

/-! ## Sector reconstruction (the per-repetition bodies in `unecmify`) -/

/-- The sector buffer after `memset(sector, 0, 2352)` and
`memset(sector + 1, 0xFF, 10)`: the sync pattern `00 FF×10 00` followed by
zeros. -/
def blankSector : Nat → Nat := setRange (fun _ => 0) 1 10 0xFF

/-- Mode 1 reconstruction: mode byte `0x01` at `0x0F`, 3 address bytes read
into `0x00C`, 2048 data bytes read into `0x010`, then `eccedc_generate` with
type 1. -/
def mode1Sector (addr data : List Nat) : Nat → Nat :=
  let s1 := upd blankSector 0x0F 0x01
  let s2 := copyBytes s1 0x00C addr
  let s3 := copyBytes s2 0x010 data
  eccedc_generate s3 1

/-- Shared Mode 2 buffer setup: mode byte `0x02` at `0x0F`, `payload` bytes
read into `0x014`, and the 4-byte subheader mirrored from `0x14` to `0x10`. -/
def mode2Base (payload : List Nat) : Nat → Nat :=
  let s1 := upd blankSector 0x0F 0x02
  let s2 := copyBytes s1 0x014 payload
  let s3 := upd s2 0x10 (s2 0x14)
  let s4 := upd s3 0x11 (s3 0x15)
  let s5 := upd s4 0x12 (s4 0x16)
  upd s5 0x13 (s5 0x17)

/-- Mode 2 Form 1 reconstruction (payload is the `0x804` bytes read from
input). -/
def mode2form1Sector (payload : List Nat) : Nat → Nat :=
  eccedc_generate (mode2Base payload) 2

/-- Mode 2 Form 2 reconstruction (payload is the `0x918` bytes read from
input). -/
def mode2form2Sector (payload : List Nat) : Nat → Nat :=
  eccedc_generate (mode2Base payload) 3

/-! ## Stream decoder (`unecmify`) -/

/-- The error outcomes of a decode, named as in the specification. -/
inductive DecodeError where
  | HeaderMissing
  | UnexpectedEndOfStream
  | InvalidChunkLength
  | ChecksumMismatch
deriving DecidableEq

/-- The continuation loop of the chunk-header decoder:
`while (c & 0x80) { c = fgetc(in); num |= (c & 0x7F) << bits; bits += 7; }`.
Returns the decoded count and the remaining input, or `none` on end of
input. -/
def decodeNumLoop : Nat → Nat → Nat → List Nat → Option (Nat × List Nat)
  | c, num, bits, input =>
    if c &&& 0x80 = 0 then some (num, input)
    else
      match input with
      | [] => none
      | c2 :: rest => decodeNumLoop c2 (num ||| ((c2 &&& 0x7F) <<< bits)) (bits + 7) rest

/-- Chunk-header decoding: read one byte; type is its low 2 bits, the initial
count is bits 2-6 (`(c >> 2) & 0x1F`), then the continuation loop with
`bits = 5`. -/
def decodeHeader : List Nat → Option (Nat × Nat × List Nat)
  | [] => none
  | c :: rest =>
    match decodeNumLoop c ((c >>> 2) &&& 0x1F) 5 rest with
    | none => none
    | some (num, rest2) => some (c &&& 3, num, rest2)

/-- One sector reconstruction inside the `while(num--)` loop: reads the
mode-specific payload from input and returns the emitted bytes together
with the remaining input. -/
def reconstructSector (type : Nat) (input : List Nat) :
    Except DecodeError (List Nat × List Nat) :=
  if type = 1 then
    if input.length < 0x003 then .error .UnexpectedEndOfStream
    else if (input.drop 3).length < 0x800 then .error .UnexpectedEndOfStream
    else
      .ok ((List.range 2352).map (mode1Sector (input.take 3) ((input.drop 3).take 0x800)),
        (input.drop 3).drop 0x800)
  else if type = 2 then
    if input.length < 0x804 then .error .UnexpectedEndOfStream
    else
      .ok ((List.range 2336).map (fun i => mode2form1Sector (input.take 0x804) (0x10 + i)),
        input.drop 0x804)
  else if type = 3 then
    if input.length < 0x918 then .error .UnexpectedEndOfStream
    else
      .ok ((List.range 2336).map (fun i => mode2form2Sector (input.take 0x918) (0x10 + i)),
        input.drop 0x918)
  else .ok ([], input)

/-- The `while(num--)` loop for sector chunks: each repetition reconstructs
one sector, accumulates the output checksum over the emitted bytes and
appends them to the output. -/
def processSectors (type : Nat) : Nat → Nat → List Nat →
    Except DecodeError (List Nat × Nat × List Nat)
  | 0, checkedc, input => .ok ([], checkedc, input)
  | n + 1, checkedc, input =>
    match reconstructSector type input with
    | .error e => .error e
    | .ok (emitted, rest) =>
      match processSectors type n (edc_partial_computeblock checkedc emitted) rest with
      | .error e => .error e
      | .ok (out, c2, rest2) => .ok (emitted ++ out, c2, rest2)

/-- The `while(num)` loop for literal chunks: copy `num` input bytes to the
output in pieces of at most 2352 bytes, accumulating the output checksum
over each piece. -/
def processLiteral : Nat → Nat → List Nat →
    Except DecodeError (List Nat × Nat × List Nat)
  | 0, checkedc, input => .ok ([], checkedc, input)
  | n + 1, checkedc, input =>
    if input.length < min (n + 1) 2352 then .error .UnexpectedEndOfStream
    else
      match processLiteral (n + 1 - min (n + 1) 2352)
          (edc_partial_computeblock checkedc (input.take (min (n + 1) 2352)))
          (input.drop (min (n + 1) 2352)) with
      | .error e => .error e
      | .ok (out, c2, rest2) => .ok (input.take (min (n + 1) 2352) ++ out, c2, rest2)
  termination_by n _ _ => n
  decreasing_by omega

/-! ### Input-consumption bounds, needed for termination of the chunk loop -/

theorem decodeNumLoop_length {c num bits n : Nat} {input rest : List Nat}
    (h : decodeNumLoop c num bits input = some (n, rest)) :
    rest.length ≤ input.length := by
  induction input generalizing c num bits n with
  | nil =>
    rw [decodeNumLoop] at h
    split at h
    · cases h; exact le_refl _
    · simp at h
  | cons c2 tl ih =>
    rw [decodeNumLoop] at h
    split at h
    · cases h; exact le_refl _
    · exact (ih h).trans (Nat.le_succ _)

theorem decodeHeader_length {type num : Nat} {input rest : List Nat}
    (h : decodeHeader input = some (type, num, rest)) :
    rest.length < input.length := by
  match input with
  | [] => rw [decodeHeader] at h; simp at h
  | c :: tl =>
    rw [decodeHeader] at h
    split at h
    · simp at h
    · rename_i num2 rest2 heq
      cases h
      exact Nat.lt_succ_of_le (decodeNumLoop_length heq)

theorem reconstructSector_length {type : Nat} {input emitted rest : List Nat}
    (h : reconstructSector type input = .ok (emitted, rest)) :
    rest.length ≤ input.length := by
  rw [reconstructSector] at h
  split at h
  · split at h
    · simp at h
    · split at h
      · simp at h
      · simp only [Except.ok.injEq, Prod.mk.injEq] at h
        rw [← h.2]
        simp
  · split at h
    · split at h
      · simp at h
      · simp only [Except.ok.injEq, Prod.mk.injEq] at h
        rw [← h.2]
        simp
    · split at h
      · split at h
        · simp at h
        · simp only [Except.ok.injEq, Prod.mk.injEq] at h
          rw [← h.2]
          simp
      · simp only [Except.ok.injEq, Prod.mk.injEq] at h
        rw [← h.2]

theorem processSectors_length {type n c c2 : Nat} {input out rest : List Nat}
    (h : processSectors type n c input = .ok (out, c2, rest)) :
    rest.length ≤ input.length := by
  induction n generalizing c input out with
  | zero => rw [processSectors] at h; cases h; exact le_refl _
  | succ n ih =>
    rw [processSectors] at h
    split at h
    · simp at h
    · rename_i emitted rest1 heq
      split at h
      · simp at h
      · rename_i out1 c3 rest3 heq2
        cases h
        exact (ih heq2).trans (reconstructSector_length heq)

theorem processLiteral_length {n c c2 : Nat} {input out rest : List Nat}
    (h : processLiteral n c input = .ok (out, c2, rest)) :
    rest.length ≤ input.length := by
  induction n using Nat.strong_induction_on generalizing c input out with
  | _ n ih =>
    match n with
    | 0 => rw [processLiteral] at h; cases h; exact le_refl _
    | n + 1 =>
      rw [processLiteral] at h
      split at h
      · simp at h
      · split at h
        · simp at h
        · rename_i out1 c3 rest3 heq
          cases h
          exact (ih (n + 1 - min (n + 1) 2352) (by omega) heq).trans (by simp)

/-- The main chunk loop of `unecmify`: decode a header; raw count
`0xFFFFFFFF` is the end-of-stream sentinel; otherwise increment the count,
reject counts at or above `2^63`, and dispatch on the chunk type.
Returns the output bytes, the final running checksum and the input
remaining after the sentinel. -/
def decodeChunks (checkedc : Nat) (input : List Nat) :
    Except DecodeError (List Nat × Nat × List Nat) :=
  match h : decodeHeader input with
  | none => .error .UnexpectedEndOfStream
  | some (type, num, rest) =>
    if num = 0xFFFFFFFF then .ok ([], checkedc, rest)
    else if 0x8000000000000000 ≤ num + 1 then .error .InvalidChunkLength
    else if type = 0 then
      match h2 : processLiteral (num + 1) checkedc rest with
      | .error e => .error e
      | .ok (out, c2, rest2) =>
        match decodeChunks c2 rest2 with
        | .error e => .error e
        | .ok (out2, c3, rest3) => .ok (out ++ out2, c3, rest3)
    else
      match h2 : processSectors type (num + 1) checkedc rest with
      | .error e => .error e
      | .ok (out, c2, rest2) =>
        match decodeChunks c2 rest2 with
        | .error e => .error e
        | .ok (out2, c3, rest3) => .ok (out ++ out2, c3, rest3)
  termination_by input.length
  decreasing_by
  · exact lt_of_le_of_lt (processLiteral_length h2) (decodeHeader_length h)
  · exact lt_of_le_of_lt (processSectors_length h2) (decodeHeader_length h)

/-- The final 4-byte trailer read and little-endian comparison against the
accumulated output checksum. -/
def checkTrailer (checkedc : Nat) (input : List Nat) : Except DecodeError Unit :=
  match input with
  | b0 :: b1 :: b2 :: b3 :: _ =>
    if b0 = checkedc &&& 0xFF ∧ b1 = (checkedc >>> 8) &&& 0xFF ∧
       b2 = (checkedc >>> 16) &&& 0xFF ∧ b3 = (checkedc >>> 24) &&& 0xFF
    then .ok () else .error .ChecksumMismatch
  | _ => .error .UnexpectedEndOfStream

/-- `unecmify`: check the 4-byte magic `"ECM\0"`, run the chunk loop with a
zero checksum accumulator, then verify the trailer. Returns the decoded
output bytes. -/
def unecmify (input : List Nat) : Except DecodeError (List Nat) :=
  match input with
  | 0x45 :: 0x43 :: 0x4D :: 0x00 :: rest =>
    match decodeChunks 0 rest with
    | .error e => .error e
    | .ok (out, checkedc, rest2) =>
      match checkTrailer checkedc rest2 with
      | .error e => .error e
      | .ok _ => .ok out
  | _ => .error .HeaderMissing

/-! ## Specification-side definitions

These render the specification's description of the algorithms, for
comparison with the embedded code. -/

/-- The specification's description of the parity walk state: accumulators
`(a, b)` after `n` steps, where step `k` reads
`buffer[(idx0 + k*inc) mod size]`, XORs it into both accumulators and then
passes `a` through the forward table. -/
def paritySpecState (buffer : Nat → Nat) (size inc idx0 n : Nat) : Nat × Nat :=
  (List.range n).foldl (fun ab k =>
    (ecc_f_lut ((ab.1 ^^^ buffer ((idx0 + k * inc) % size)) &&& 0xFF),
     (ab.2 ^^^ buffer ((idx0 + k * inc) % size)) &&& 0xFF)) (0, 0)

/-- The specification's description of the two parity output bytes for one
major: `final = backwardTable[forwardTable[a] xor b]`, output `final` at
position `major` and `final xor b` at position `major + majorCount`. -/
def paritySpecOut (buffer : Nat → Nat) (size inc idx0 n : Nat) : Nat × Nat :=
  let ab := paritySpecState buffer size inc idx0 n
  let fin := ecc_b_lut (ecc_f_lut ab.1 ^^^ ab.2)
  (fin, fin ^^^ ab.2)

/-- The count bits contributed by a list of continuation bytes starting at
bit offset `off`: each byte contributes its low 7 bits, at offsets growing
by 7 per byte. -/
def contBits : List Nat → Nat → Nat
  | [], _ => 0
  | b :: bs, off => ((b &&& 0x7F) <<< off) ||| contBits bs (off + 7)

/-- A well-formed continuation-byte chain: all bytes except the last have
the top bit set, the last has it clear. -/
def contChain : List Nat → Bool
  | [] => false
  | b :: bs => if bs.isEmpty then b &&& 0x80 == 0 else (b &&& 0x80 != 0) && contChain bs

/-- The 4 little-endian bytes of the 32-bit output checksum, as compared
against the stream trailer. -/
def trailerBytes (c : Nat) : List Nat :=
  [c &&& 0xFF, (c >>> 8) &&& 0xFF, (c >>> 16) &&& 0xFF, (c >>> 24) &&& 0xFF]

/-- The contents of a reconstructed Mode 1 sector `s`, as claimed: sync
pattern, mode byte, address bytes, data bytes, little-endian EDC over
`[0x000, 0x810)` at `0x810`, zero fill over `[0x814, 0x81C)`, and P/Q
parity bytes computed over the sector region at `0x00C` with the address
bytes in place. -/
def Mode1SpecAt (s : Nat → Nat) (addr data : List Nat) : Prop :=
  s 0 = 0x00 ∧ (∀ k, 1 ≤ k → k ≤ 10 → s k = 0xFF) ∧ s 11 = 0x00 ∧
  s 0x0F = 0x01 ∧
  (∀ j, j < 3 → s (0x00C + j) = addr.getD j 0) ∧
  (∀ j, j < 2048 → s (0x010 + j) = data.getD j 0) ∧
  (∀ j, j < 4 → s (0x810 + j) =
    edcByteLE (edc_partial_computeblock 0 ((List.range 0x810).map s)) j) ∧
  (∀ j, 0x814 ≤ j → j < 0x81C → s j = 0) ∧
  (∀ major, major < 86 →
    s (0x81C + major) =
      (paritySpecOut (fun i => s (0x00C + i)) (86 * 24) 86 ((major / 2) * 2 + major % 2) 24).1 ∧
    s (0x81C + major + 86) =
      (paritySpecOut (fun i => s (0x00C + i)) (86 * 24) 86 ((major / 2) * 2 + major % 2) 24).2) ∧
  (∀ major, major < 52 →
    s (0x8C8 + major) =
      (paritySpecOut (fun i => s (0x00C + i)) (52 * 43) 88 ((major / 2) * 86 + major % 2) 43).1 ∧
    s (0x8C8 + major + 52) =
      (paritySpecOut (fun i => s (0x00C + i)) (52 * 43) 88 ((major / 2) * 86 + major % 2) 43).2)

/-- The contents of a reconstructed Mode 2 Form 2 sector `s`, as claimed:
subheader mirrored at `0x10` and `0x14`, the 2328 payload bytes at `0x14`,
little-endian EDC over `[0x10, 0x92C)` at `0x92C`, and no other byte
changed by the generation step (in particular no parity). -/
def Mode2Form2SpecAt (s : Nat → Nat) (payload : List Nat) : Prop :=
  (∀ j, j < 4 → s (0x10 + j) = payload.getD j 0 ∧ s (0x14 + j) = payload.getD j 0) ∧
  (∀ j, j < 2328 → s (0x14 + j) = payload.getD j 0) ∧
  (∀ j, j < 4 → s (0x92C + j) =
    edcByteLE (edc_partial_computeblock 0
      ((List.range 0x91C).map (fun i => s (0x10 + i)))) j) ∧
  (∀ k, k < 0x92C ∨ 0x930 ≤ k → s k = mode2Base payload k)

/-! ## Basic buffer lemmas -/

theorem upd_same (f : Nat → Nat) (a v : Nat) : upd f a v a = v := by simp [upd]

theorem upd_ne (f : Nat → Nat) {a k : Nat} (v : Nat) (h : k ≠ a) : upd f a v k = f k := by
  simp [upd, h]

theorem setRange_in (buf : Nat → Nat) {off len : Nat} (v : Nat) {k : Nat}
    (h1 : off ≤ k) (h2 : k < off + len) : setRange buf off len v k = v := by
  simp [setRange, h1, h2]

theorem setRange_out (buf : Nat → Nat) {off len : Nat} (v : Nat) {k : Nat}
    (h : ¬(off ≤ k ∧ k < off + len)) : setRange buf off len v k = buf k := by
  simp only [setRange, if_neg h]

theorem copyBytes_in (buf : Nat → Nat) {off : Nat} {data : List Nat} {k : Nat}
    (h1 : off ≤ k) (h2 : k < off + data.length) :
    copyBytes buf off data k = data.getD (k - off) 0 := by
  simp [copyBytes, h1, h2]

theorem copyBytes_out (buf : Nat → Nat) {off : Nat} {data : List Nat} {k : Nat}
    (h : ¬(off ≤ k ∧ k < off + data.length)) : copyBytes buf off data k = buf k := by
  simp only [copyBytes, if_neg h]

/-! ## Claim C3: algebraic laws of the checksum accumulator -/

/-- C3: the checksum accumulator leaves the accumulator unchanged on the
empty byte sequence (in particular `accumulate(0, [], 0) = 0`), accumulating
`A` then `B` equals accumulating the concatenation `A ++ B`, and each byte
updates the accumulator as
`acc = (acc >> 8) xor checksumTable[(acc xor byte) & 0xFF]`. -/
theorem claim_C3 :
    (∀ acc : Nat, edc_partial_computeblock acc [] = acc) ∧
    edc_partial_computeblock 0 [] = 0 ∧
    (∀ (acc : Nat) (A B : List Nat),
      edc_partial_computeblock acc (A ++ B) =
        edc_partial_computeblock (edc_partial_computeblock acc A) B) ∧
    (∀ (acc b : Nat) (A : List Nat),
      edc_partial_computeblock acc (b :: A) =
        edc_partial_computeblock ((acc >>> 8) ^^^ edc_lut ((acc ^^^ b) &&& 0xFF)) A) := by
  refine ⟨fun acc => rfl, rfl, fun acc A B => ?_, fun acc b A => rfl⟩
  simp [edc_partial_computeblock, List.foldl_append]

/-! ## Claims C6 and C7: lookup-table invariants -/

/-- C6: after the tables are built, `ecc_b_lut[i ^ ecc_f_lut[i]] = i` for
every `i` in 0..255, where `ecc_f_lut[i]` is
`(i << 1) ^ (0x11D if bit7(i) else 0)` truncated to 8 bits. -/
theorem claim_C6 : ∀ i : Nat, i < 256 →
    ecc_b_lut (i ^^^ ecc_f_lut i) = i ∧
    ecc_f_lut i = ((i <<< 1) ^^^ (if i &&& 0x80 ≠ 0 then 0x11D else 0)) % 256 := by
  decide

theorem claim_C6_witness :
    (200 < 256) ∧
    (ecc_b_lut (200 ^^^ ecc_f_lut 200) = 200 ∧
     ecc_f_lut 200 = ((200 <<< 1) ^^^ (if 200 &&& 0x80 ≠ 0 then 0x11D else 0)) % 256) :=
  ⟨by decide, claim_C6 200 (by decide)⟩

/-- C7, counterexample: the tables are not mutually inverse; at `i = 1`,
`ecc_b_lut[ecc_f_lut[1]] = 245 ≠ 1` (and `ecc_f_lut[ecc_b_lut[1]] ≠ 1`). -/
theorem claim_C7_counterexample :
    ¬(ecc_b_lut (ecc_f_lut 1) = 1 ∧ ecc_f_lut (ecc_b_lut 1) = 1) := by
  decide

set_option maxHeartbeats 3200000 in
/-- C7, amended: `ecc_f_lut` and `ecc_b_lut` are each byte permutations
(they map 0..255 into 0..255 without repetition), and `ecc_b_lut` is the
inverse of the permutation `i ↦ i xor ecc_f_lut[i]` — not of `ecc_f_lut`
itself. -/
theorem claim_C7 :
    (∀ i : Nat, i < 256 →
      ecc_f_lut i < 256 ∧ ecc_b_lut i < 256 ∧ ecc_b_lut (i ^^^ ecc_f_lut i) = i) ∧
    ((List.range 256).map ecc_f_lut).Nodup ∧
    ((List.range 256).map ecc_b_lut).Nodup := by
  refine ⟨by decide, by decide, by decide⟩

theorem claim_C7_witness :
    (7 < 256) ∧
    (ecc_f_lut 7 < 256 ∧ ecc_b_lut 7 < 256 ∧ ecc_b_lut (7 ^^^ ecc_f_lut 7) = 7) :=
  ⟨by decide, claim_C7.1 7 (by decide)⟩

/-! ## Parity engine lemmas -/

theorem condSub_eq_mod {a b : Nat} (h : a < 2 * b) :
    (if b ≤ a then a - b else a) = a % b := by
  rcases le_or_lt b a with hba | hba
  · rw [if_pos hba, Nat.mod_eq_sub_mod hba, Nat.mod_eq_of_lt (by omega)]
  · rw [if_neg (not_le.mpr hba), Nat.mod_eq_of_lt hba]

theorem eccInnerLoop_succ (src : Nat → Nat) (size inc n idx0 : Nat) :
    eccInnerLoop src size inc (n + 1) idx0 =
      eccInnerStep src size inc (eccInnerLoop src size inc n idx0) :=
  Function.iterate_succ_apply' _ _ _

theorem eccInnerStep_index_lt {src : Nat → Nat} {size inc : Nat} {s : Nat × Nat × Nat}
    (h : s.1 < size) (hinc : inc < size) : (eccInnerStep src size inc s).1 < size := by
  simp only [eccInnerStep]
  split <;> omega

theorem eccInnerLoop_index_lt {src : Nat → Nat} {size inc idx0 : Nat}
    (h : idx0 < size) (hinc : inc < size) (n : Nat) :
    (eccInnerLoop src size inc n idx0).1 < size := by
  induction n with
  | zero => simpa [eccInnerLoop] using h
  | succ n ih => rw [eccInnerLoop_succ]; exact eccInnerStep_index_lt ih hinc

theorem paritySpecState_succ (buffer : Nat → Nat) (size inc idx0 n : Nat) :
    paritySpecState buffer size inc idx0 (n + 1) =
      (ecc_f_lut (((paritySpecState buffer size inc idx0 n).1 ^^^
          buffer ((idx0 + n * inc) % size)) &&& 0xFF),
       ((paritySpecState buffer size inc idx0 n).2 ^^^
          buffer ((idx0 + n * inc) % size)) &&& 0xFF) := by
  unfold paritySpecState
  rw [List.range_succ, List.foldl_append, List.foldl_cons, List.foldl_nil]

theorem eccInnerLoop_spec {src : Nat → Nat} {size inc idx0 : Nat}
    (h : idx0 < size) (hinc : inc < size) (n : Nat) :
    eccInnerLoop src size inc n idx0 =
      ((idx0 + n * inc) % size,
       (paritySpecState src size inc idx0 n).1,
       (paritySpecState src size inc idx0 n).2) := by
  induction n with
  | zero => simp [eccInnerLoop, paritySpecState, Nat.mod_eq_of_lt h]
  | succ n ih =>
    rw [eccInnerLoop_succ, ih, paritySpecState_succ]
    have hidx : (idx0 + n * inc) % size < size := Nat.mod_lt _ (by omega)
    have hi2 : (if size ≤ (idx0 + n * inc) % size + inc
        then (idx0 + n * inc) % size + inc - size
        else (idx0 + n * inc) % size + inc) = (idx0 + (n + 1) * inc) % size := by
      rw [condSub_eq_mod (by omega), Nat.mod_add_mod]
      congr 1
      ring
    simp only [eccInnerStep]
    rw [hi2]

theorem paritySpecState_congr {src src2 : Nat → Nat} {size inc idx0 : Nat}
    (hsz : 0 < size) (hagree : ∀ i, i < size → src i = src2 i) (n : Nat) :
    paritySpecState src size inc idx0 n = paritySpecState src2 size inc idx0 n := by
  induction n with
  | zero => rfl
  | succ n ih =>
    rw [paritySpecState_succ, paritySpecState_succ, ih, hagree _ (Nat.mod_lt _ hsz)]

theorem paritySpecOut_congr {src src2 : Nat → Nat} {size inc idx0 : Nat}
    (hsz : 0 < size) (hagree : ∀ i, i < size → src i = src2 i) (n : Nat) :
    paritySpecOut src size inc idx0 n = paritySpecOut src2 size inc idx0 n := by
  unfold paritySpecOut
  rw [paritySpecState_congr hsz hagree n]

theorem eccMajorResult_spec {src : Nat → Nat} {size inc idx0 : Nat}
    (h : idx0 < size) (hinc : inc < size) (n : Nat) :
    eccMajorResult src size inc n idx0 = paritySpecOut src size inc idx0 n := by
  unfold eccMajorResult paritySpecOut
  rw [eccInnerLoop_spec h hinc]

theorem eccFold_frame {srcOff mc nc mult inc destOff : Nat} (l : List Nat)
    (b : Nat → Nat) {k : Nat} (hk : k < destOff) :
    (l.foldl (eccFoldStep srcOff mc nc mult inc destOff) b) k = b k := by
  induction l generalizing b with
  | nil => rfl
  | cons m tl ih =>
    rw [List.foldl_cons, ih]
    simp only [eccFoldStep]
    rw [upd_ne _ _ (by omega), upd_ne _ _ (by omega)]

theorem eccFold_preserve {srcOff mc nc mult inc destOff : Nat} (l : List Nat)
    (b : Nat → Nat) {k : Nat}
    (hl : ∀ m ∈ l, destOff + m ≠ k ∧ destOff + m + mc ≠ k) :
    (l.foldl (eccFoldStep srcOff mc nc mult inc destOff) b) k = b k := by
  induction l generalizing b with
  | nil => rfl
  | cons m tl ih =>
    rw [List.foldl_cons, ih _ (fun m2 hm2 => hl m2 (List.mem_cons_of_mem _ hm2))]
    have h1 := hl m (List.mem_cons_self _ _)
    simp only [eccFoldStep]
    rw [upd_ne _ _ (Ne.symm h1.2), upd_ne _ _ (Ne.symm h1.1)]

theorem eccFold_val {srcOff mc nc mult inc destOff : Nat} {buf : Nat → Nat}
    (l : List Nat) (b : Nat → Nat) (major : Nat)
    (hmem : major ∈ l) (hnd : l.Nodup) (hall : ∀ m ∈ l, m < mc)
    (hagree : ∀ k, k < destOff → b k = buf k)
    (hinc : inc < mc * nc)
    (hidx : (major / 2) * mult + major % 2 < mc * nc)
    (hsep : srcOff + mc * nc ≤ destOff) :
    (l.foldl (eccFoldStep srcOff mc nc mult inc destOff) b) (destOff + major) =
      (paritySpecOut (fun i => buf (srcOff + i)) (mc * nc) inc
        ((major / 2) * mult + major % 2) nc).1 ∧
    (l.foldl (eccFoldStep srcOff mc nc mult inc destOff) b) (destOff + major + mc) =
      (paritySpecOut (fun i => buf (srcOff + i)) (mc * nc) inc
        ((major / 2) * mult + major % 2) nc).2 := by
  have hmcnc : 0 < mc * nc := by omega
  have hmc0 : 0 < mc := by
    rcases Nat.eq_zero_or_pos mc with h0 | h0
    · rw [h0, Nat.zero_mul] at hmcnc; omega
    · exact h0
  induction l generalizing b with
  | nil => cases hmem
  | cons m tl ih =>
    have hmlt : m < mc := hall m (List.mem_cons_self _ _)
    rcases List.mem_cons.mp hmem with heq | hmem2
    · subst heq
      have hnotin : major ∉ tl := (List.nodup_cons.mp hnd).1
      rw [List.foldl_cons]
      have hpres1 : (tl.foldl (eccFoldStep srcOff mc nc mult inc destOff)
          (eccFoldStep srcOff mc nc mult inc destOff b major)) (destOff + major) =
          (eccFoldStep srcOff mc nc mult inc destOff b major) (destOff + major) := by
        refine eccFold_preserve tl _ (fun m2 hm2 => ⟨?_, ?_⟩)
        · have : m2 ≠ major := fun he => hnotin (he ▸ hm2)
          omega
        · have := hall m2 (List.mem_cons_of_mem _ hm2)
          omega
      have hpres2 : (tl.foldl (eccFoldStep srcOff mc nc mult inc destOff)
          (eccFoldStep srcOff mc nc mult inc destOff b major)) (destOff + major + mc) =
          (eccFoldStep srcOff mc nc mult inc destOff b major) (destOff + major + mc) := by
        refine eccFold_preserve tl _ (fun m2 hm2 => ⟨?_, ?_⟩)
        · have := hall m2 (List.mem_cons_of_mem _ hm2)
          omega
        · have : m2 ≠ major := fun he => hnotin (he ▸ hm2)
          omega
      rw [hpres1, hpres2]
      have hr : eccMajorResult (fun i => b (srcOff + i)) (mc * nc) inc nc
            ((major / 2) * mult + major % 2) =
          paritySpecOut (fun i => buf (srcOff + i)) (mc * nc) inc
            ((major / 2) * mult + major % 2) nc := by
        rw [eccMajorResult_spec hidx hinc]
        exact paritySpecOut_congr hmcnc
          (fun i hi => hagree (srcOff + i) (by omega)) nc
      constructor
      · simp only [eccFoldStep]
        rw [upd_ne _ _ (by omega), upd_same, hr]
      · simp only [eccFoldStep]
        rw [upd_same, hr]
    · rw [List.foldl_cons]
      exact ih (eccFoldStep srcOff mc nc mult inc destOff b m) hmem2
        (List.nodup_cons.mp hnd).2
        (fun m2 hm2 => hall m2 (List.mem_cons_of_mem _ hm2))
        (fun k hk => by
          simp only [eccFoldStep]
          rw [upd_ne _ _ (by omega), upd_ne _ _ (by omega), hagree k hk])

theorem ecc_computeblock_frame {buf : Nat → Nat} {srcOff mc nc mult inc destOff k : Nat}
    (hk : k < destOff) : ecc_computeblock buf srcOff mc nc mult inc destOff k = buf k :=
  eccFold_frame _ _ hk

theorem ecc_computeblock_val {buf : Nat → Nat} {srcOff mc nc mult inc destOff major : Nat}
    (hmaj : major < mc) (hinc : inc < mc * nc)
    (hidx : (major / 2) * mult + major % 2 < mc * nc)
    (hsep : srcOff + mc * nc ≤ destOff) :
    ecc_computeblock buf srcOff mc nc mult inc destOff (destOff + major) =
      (paritySpecOut (fun i => buf (srcOff + i)) (mc * nc) inc
        ((major / 2) * mult + major % 2) nc).1 ∧
    ecc_computeblock buf srcOff mc nc mult inc destOff (destOff + major + mc) =
      (paritySpecOut (fun i => buf (srcOff + i)) (mc * nc) inc
        ((major / 2) * mult + major % 2) nc).2 :=
  eccFold_val (List.range mc) buf major (List.mem_range.mpr hmaj) (List.nodup_range mc)
    (fun m hm => List.mem_range.mp hm) (fun k _ => rfl) hinc hidx hsep

theorem ecc_generate_false_eq (buf : Nat → Nat) :
    ecc_generate buf false =
      ecc_computeblock (ecc_computeblock buf 0xC 86 24 2 86 0x81C) 0xC 52 43 86 88 0x8C8 :=
  rfl

theorem ecc_generate_true_eq (buf : Nat → Nat) :
    ecc_generate buf true =
      restoreAddress buf
        (ecc_computeblock (ecc_computeblock (zeroAddress buf) 0xC 86 24 2 86 0x81C)
          0xC 52 43 86 88 0x8C8) :=
  rfl

theorem ecc_generate_false_frame {buf : Nat → Nat} {k : Nat} (hk : k < 0x81C) :
    ecc_generate buf false k = buf k := by
  rw [ecc_generate_false_eq, ecc_computeblock_frame (by omega), ecc_computeblock_frame hk]

theorem ecc_generate_false_P {buf : Nat → Nat} {major : Nat} (h : major < 86) :
    ecc_generate buf false (0x81C + major) =
      (paritySpecOut (fun i => buf (0x00C + i)) (86 * 24) 86
        ((major / 2) * 2 + major % 2) 24).1 ∧
    ecc_generate buf false (0x81C + major + 86) =
      (paritySpecOut (fun i => buf (0x00C + i)) (86 * 24) 86
        ((major / 2) * 2 + major % 2) 24).2 := by
  rw [ecc_generate_false_eq]
  have hval := @ecc_computeblock_val buf 0xC 86 24 2 86 0x81C major h
    (by norm_num) (by omega) (by norm_num)
  constructor
  · rw [ecc_computeblock_frame (show 0x81C + major < 0x8C8 by omega)]
    exact hval.1
  · rw [ecc_computeblock_frame (show 0x81C + major + 86 < 0x8C8 by omega)]
    exact hval.2

theorem ecc_generate_false_Q {buf : Nat → Nat} {major : Nat} (h : major < 52) :
    ecc_generate buf false (0x8C8 + major) =
      (paritySpecOut (fun i => ecc_generate buf false (0x00C + i)) (52 * 43) 88
        ((major / 2) * 86 + major % 2) 43).1 ∧
    ecc_generate buf false (0x8C8 + major + 52) =
      (paritySpecOut (fun i => ecc_generate buf false (0x00C + i)) (52 * 43) 88
        ((major / 2) * 86 + major % 2) 43).2 := by
  rw [ecc_generate_false_eq]
  have hval := @ecc_computeblock_val (ecc_computeblock buf 0xC 86 24 2 86 0x81C)
    0xC 52 43 86 88 0x8C8 major h (by norm_num) (by omega) (by norm_num)
  have hcongr : paritySpecOut
        (fun i => ecc_computeblock buf 0xC 86 24 2 86 0x81C (0xC + i)) (52 * 43) 88
        ((major / 2) * 86 + major % 2) 43 =
      paritySpecOut
        (fun i => ecc_computeblock (ecc_computeblock buf 0xC 86 24 2 86 0x81C)
          0xC 52 43 86 88 0x8C8 (0x00C + i)) (52 * 43) 88
        ((major / 2) * 86 + major % 2) 43 :=
    paritySpecOut_congr (by norm_num)
      (fun i hi => (ecc_computeblock_frame (show 0x00C + i < 0x8C8 by omega)).symm) 43
  exact ⟨hval.1.trans (congrArg Prod.fst hcongr),
    hval.2.trans (congrArg Prod.snd hcongr)⟩

/-! ## EDC write lemmas -/

theorem edc_computeblock_frame {buf : Nat → Nat} {srcOff size destOff k : Nat}
    (h1 : k ≠ destOff) (h2 : k ≠ destOff + 1) (h3 : k ≠ destOff + 2) (h4 : k ≠ destOff + 3) :
    edc_computeblock buf srcOff size destOff k = buf k := by
  simp only [edc_computeblock]
  rw [upd_ne _ _ h4, upd_ne _ _ h3, upd_ne _ _ h2, upd_ne _ _ h1]

theorem edc_computeblock_val {buf : Nat → Nat} {srcOff size destOff : Nat} {j : Nat}
    (hj : j < 4) :
    edc_computeblock buf srcOff size destOff (destOff + j) =
      edcByteLE (edc_partial_computeblock 0
        ((List.range size).map (fun i => buf (srcOff + i)))) j := by
  simp only [edc_computeblock]
  interval_cases j
  · rw [upd_ne _ _ (by omega), upd_ne _ _ (by omega), upd_ne _ _ (by omega),
      Nat.add_zero, upd_same]
  · rw [upd_ne _ _ (by omega), upd_ne _ _ (by omega), upd_same]
  · rw [upd_ne _ _ (by omega), upd_same]
  · rw [upd_same]

theorem eccedc_generate_one (sector : Nat → Nat) :
    eccedc_generate sector 1 =
      ecc_generate (setRange (edc_computeblock sector 0x00 0x810 0x810) 0x814 8 0) false :=
  rfl

theorem eccedc_generate_two (sector : Nat → Nat) :
    eccedc_generate sector 2 =
      ecc_generate (edc_computeblock sector 0x10 0x808 0x818) true :=
  rfl

theorem eccedc_generate_three (sector : Nat → Nat) :
    eccedc_generate sector 3 = edc_computeblock sector 0x10 0x91C 0x92C :=
  rfl

/-! ## Address-byte preservation lemmas -/

theorem restoreAddress_addr (orig s : Nat → Nat) {k : Nat} (h1 : 12 ≤ k) (h2 : k < 16) :
    restoreAddress orig s k = orig k := by
  simp only [restoreAddress]
  interval_cases k <;> simp [upd]

theorem zeroAddress_out (s : Nat → Nat) {k : Nat} (h : k < 12 ∨ 16 ≤ k) :
    zeroAddress s k = s k := by
  simp only [zeroAddress]
  rw [upd_ne _ _ (by omega), upd_ne _ _ (by omega), upd_ne _ _ (by omega),
    upd_ne _ _ (by omega)]

/-! ## Claim C9: scoped zero/restore of the address bytes -/

/-- C9: when parity is computed with address exclusion, the 4 address bytes
at `0x0C`-`0x0F` are restored after the parity call: `ecc_generate` with
`zeroaddress` set returns them unchanged, and `eccedc_generate` leaves them
unchanged in every mode. -/
theorem claim_C9 : ∀ (sector : Nat → Nat) (k : Nat), 12 ≤ k → k < 16 →
    ecc_generate sector true k = sector k ∧
    (∀ type, eccedc_generate sector type k = sector k) := by
  intro sector k h1 h2
  have hgen : ∀ b : Nat → Nat, ecc_generate b true k = b k := fun b => by
    rw [ecc_generate_true_eq]
    exact restoreAddress_addr _ _ h1 h2
  have hedc1 : edc_computeblock sector 0x00 0x810 0x810 k = sector k :=
    edc_computeblock_frame (by omega) (by omega) (by omega) (by omega)
  have hedc2 : edc_computeblock sector 0x10 0x808 0x818 k = sector k :=
    edc_computeblock_frame (by omega) (by omega) (by omega) (by omega)
  have hedc3 : edc_computeblock sector 0x10 0x91C 0x92C k = sector k :=
    edc_computeblock_frame (by omega) (by omega) (by omega) (by omega)
  refine ⟨hgen sector, fun type => ?_⟩
  by_cases ht1 : type = 1
  · subst ht1
    rw [eccedc_generate_one]
    have hfr : ecc_generate (setRange (edc_computeblock sector 0x00 0x810 0x810) 0x814 8 0)
        false k = setRange (edc_computeblock sector 0x00 0x810 0x810) 0x814 8 0 k :=
      ecc_generate_false_frame (by omega)
    rw [hfr, setRange_out _ _ (by omega), hedc1]
  · by_cases ht2 : type = 2
    · subst ht2
      rw [eccedc_generate_two, hgen _, hedc2]
    · by_cases ht3 : type = 3
      · subst ht3
        rw [eccedc_generate_three, hedc3]
      · simp only [eccedc_generate, if_neg ht1, if_neg ht2, if_neg ht3]

theorem claim_C9_witness :
    (12 ≤ 13 ∧ 13 < 16) ∧
    (ecc_generate (fun _ => 7) true 13 = 7 ∧
     (∀ type, eccedc_generate (fun _ => 7) type 13 = 7)) :=
  ⟨⟨by decide, by decide⟩, claim_C9 (fun _ => 7) 13 (by decide) (by decide)⟩

/-! ## Claim C4: the parity engine and its P/Q applications -/

/-- C4: for every buffer, the parity pass writes, for each `major`, the
byte `backwardTable[forwardTable[a] xor b]` at `destOff + major` and that
byte xor `b` at `destOff + major + majorCount`, where `(a, b)` accumulate
the walk that starts at `(major >> 1) * majorStride + (major & 1)` and
advances by `minorIncrement` modulo `majorCount * minorCount`; it is
applied with the P parameters (86×24, stride 2, increment 86, output
`0x81C`) and the Q parameters (52×43, stride 86, increment 88, output
`0x8C8`) over the region at sector offset `0x00C`. -/
theorem claim_C4 : ∀ (buf : Nat → Nat),
    (∀ major, major < 86 →
      ecc_generate buf false (0x81C + major) =
        (paritySpecOut (fun i => buf (0x00C + i)) (86 * 24) 86
          ((major / 2) * 2 + major % 2) 24).1 ∧
      ecc_generate buf false (0x81C + major + 86) =
        (paritySpecOut (fun i => buf (0x00C + i)) (86 * 24) 86
          ((major / 2) * 2 + major % 2) 24).2) ∧
    (∀ major, major < 52 →
      ecc_generate buf false (0x8C8 + major) =
        (paritySpecOut (fun i => ecc_generate buf false (0x00C + i)) (52 * 43) 88
          ((major / 2) * 86 + major % 2) 43).1 ∧
      ecc_generate buf false (0x8C8 + major + 52) =
        (paritySpecOut (fun i => ecc_generate buf false (0x00C + i)) (52 * 43) 88
          ((major / 2) * 86 + major % 2) 43).2) :=
  fun buf => ⟨fun _ h => ecc_generate_false_P h, fun _ h => ecc_generate_false_Q h⟩

theorem claim_C4_witness :
    (5 < 86) ∧
    (ecc_generate (fun _ => 9) false (0x81C + 5) =
      (paritySpecOut (fun i => (fun _ : Nat => 9) (0x00C + i)) (86 * 24) 86
        ((5 / 2) * 2 + 5 % 2) 24).1 ∧
     ecc_generate (fun _ => 9) false (0x81C + 5 + 86) =
      (paritySpecOut (fun i => (fun _ : Nat => 9) (0x00C + i)) (86 * 24) 86
        ((5 / 2) * 2 + 5 % 2) 24).2) :=
  ⟨by decide, (claim_C4 (fun _ => 9)).1 5 (by decide)⟩

/-! ## Claim C10: the parity index stays in bounds -/

/-- C10: with the P parameters and with the Q parameters, the running index
of the inner walk is below `majorCount * minorCount` at every step (so
every read at `0x00C + index` stays inside the 2352-byte sector), and the
value before the conditional subtraction is below twice the region size,
so a single subtraction always suffices. -/
theorem claim_C10 : ∀ (src : Nat → Nat) (major n : Nat),
    (major < 86 →
      (major / 2) * 2 + major % 2 < 86 * 24 ∧
      (eccInnerLoop src (86 * 24) 86 n ((major / 2) * 2 + major % 2)).1 < 86 * 24 ∧
      (eccInnerLoop src (86 * 24) 86 n ((major / 2) * 2 + major % 2)).1 + 86 <
        2 * (86 * 24) ∧
      0x00C + (eccInnerLoop src (86 * 24) 86 n ((major / 2) * 2 + major % 2)).1 < 2352) ∧
    (major < 52 →
      (major / 2) * 86 + major % 2 < 52 * 43 ∧
      (eccInnerLoop src (52 * 43) 88 n ((major / 2) * 86 + major % 2)).1 < 52 * 43 ∧
      (eccInnerLoop src (52 * 43) 88 n ((major / 2) * 86 + major % 2)).1 + 88 <
        2 * (52 * 43) ∧
      0x00C + (eccInnerLoop src (52 * 43) 88 n ((major / 2) * 86 + major % 2)).1 < 2352) := by
  intro src major n
  constructor
  · intro h
    have hidx : (major / 2) * 2 + major % 2 < 86 * 24 := by omega
    have hlt := @eccInnerLoop_index_lt src (86 * 24) 86 ((major / 2) * 2 + major % 2)
      hidx (by norm_num) n
    exact ⟨hidx, hlt, by omega, by omega⟩
  · intro h
    have hidx : (major / 2) * 86 + major % 2 < 52 * 43 := by omega
    have hlt := @eccInnerLoop_index_lt src (52 * 43) 88 ((major / 2) * 86 + major % 2)
      hidx (by norm_num) n
    exact ⟨hidx, hlt, by omega, by omega⟩

theorem claim_C10_witness :
    (3 < 86) ∧
    ((3 / 2) * 2 + 3 % 2 < 86 * 24 ∧
     (eccInnerLoop (fun _ => 0) (86 * 24) 86 5 ((3 / 2) * 2 + 3 % 2)).1 < 86 * 24 ∧
     (eccInnerLoop (fun _ => 0) (86 * 24) 86 5 ((3 / 2) * 2 + 3 % 2)).1 + 86 <
       2 * (86 * 24) ∧
     0x00C + (eccInnerLoop (fun _ => 0) (86 * 24) 86 5 ((3 / 2) * 2 + 3 % 2)).1 < 2352) :=
  ⟨by decide, (claim_C10 (fun _ => 0) 3 5).1 (by decide)⟩

/-! ## Mode 1 reconstruction lemmas -/

theorem blankSector_zero : blankSector 0 = 0 := rfl

theorem blankSector_ff {k : Nat} (h1 : 1 ≤ k) (h2 : k ≤ 10) : blankSector k = 0xFF :=
  setRange_in _ _ h1 (by omega)

theorem blankSector_eleven : blankSector 11 = 0 := rfl

theorem mode1Sector_eq (addr data : List Nat) :
    mode1Sector addr data =
      ecc_generate (setRange (edc_computeblock
        (copyBytes (copyBytes (upd blankSector 0x0F 0x01) 0x00C addr) 0x010 data)
        0x00 0x810 0x810) 0x814 8 0) false :=
  rfl

theorem mode1_low {addr data : List Nat} {k : Nat} (hk : k < 0x810) :
    mode1Sector addr data k =
      copyBytes (copyBytes (upd blankSector 0x0F 0x01) 0x00C addr) 0x010 data k := by
  rw [mode1Sector_eq, ecc_generate_false_frame (by omega), setRange_out _ _ (by omega),
    edc_computeblock_frame (by omega) (by omega) (by omega) (by omega)]

theorem mode1_base_low {addr data : List Nat} {k : Nat} (ha : addr.length = 3)
    (hk : k < 12) :
    copyBytes (copyBytes (upd blankSector 0x0F 0x01) 0x00C addr) 0x010 data k =
      blankSector k := by
  rw [copyBytes_out _ (by omega), copyBytes_out _ (by rw [ha]; omega),
    upd_ne _ _ (by omega)]

theorem mode1_base_modebyte {addr data : List Nat} (ha : addr.length = 3) :
    copyBytes (copyBytes (upd blankSector 0x0F 0x01) 0x00C addr) 0x010 data 0x0F = 0x01 := by
  rw [copyBytes_out _ (by omega), copyBytes_out _ (by rw [ha]; omega), upd_same]

theorem mode1_base_addr {addr data : List Nat} {j : Nat} (ha : addr.length = 3)
    (hj : j < 3) :
    copyBytes (copyBytes (upd blankSector 0x0F 0x01) 0x00C addr) 0x010 data (0x00C + j) =
      addr.getD j 0 := by
  rw [copyBytes_out _ (by omega), copyBytes_in _ (by omega) (by rw [ha]; omega)]
  congr 1
  omega

theorem mode1_base_data {addr data : List Nat} {j : Nat} (hd : data.length = 2048)
    (hj : j < 2048) :
    copyBytes (copyBytes (upd blankSector 0x0F 0x01) 0x00C addr) 0x010 data (0x010 + j) =
      data.getD j 0 := by
  rw [copyBytes_in _ (by omega) (by rw [hd]; omega)]
  congr 1
  omega

/-! ## Single-repetition processing lemmas -/

theorem processSectors_one (type acc : Nat) (input : List Nat) :
    processSectors type 1 acc input =
      match reconstructSector type input with
      | .error e => .error e
      | .ok (emitted, rest) =>
        .ok (emitted, edc_partial_computeblock acc emitted, rest) := by
  rw [show (1 : Nat) = 0 + 1 from rfl, processSectors]
  cases hrec : reconstructSector type input with
  | error e => rfl
  | ok p =>
    cases p with
    | mk emitted rest =>
      have h0 : processSectors type 0 (edc_partial_computeblock acc emitted) rest =
          .ok ([], edc_partial_computeblock acc emitted, rest) := rfl
      simp [h0]

theorem processLiteral_one (acc b : Nat) (rest : List Nat) :
    processLiteral 1 acc (b :: rest) = .ok ([b], edcPartialStep acc b, rest) := by
  rw [show (1 : Nat) = 0 + 1 from rfl, processLiteral]
  rw [if_neg (by simp)]
  simp [processLiteral, edc_partial_computeblock]

theorem mode1_edc {addr data : List Nat} {j : Nat} (hj : j < 4) :
    mode1Sector addr data (0x810 + j) =
      edcByteLE (edc_partial_computeblock 0
        ((List.range 0x810).map (mode1Sector addr data))) j := by
  have hv : mode1Sector addr data (0x810 + j) =
      edcByteLE (edc_partial_computeblock 0 ((List.range 0x810).map
        (fun i => copyBytes (copyBytes (upd blankSector 0x0F 0x01) 0x00C addr)
          0x010 data (0x00 + i)))) j := by
    rw [mode1Sector_eq, ecc_generate_false_frame (by omega),
      setRange_out _ _ (by omega)]
    exact edc_computeblock_val hj
  have hmap : (List.range 0x810).map
      (fun i => copyBytes (copyBytes (upd blankSector 0x0F 0x01) 0x00C addr)
        0x010 data (0x00 + i)) =
      (List.range 0x810).map (mode1Sector addr data) :=
    List.map_congr_left (fun i hi => by
      have hi2 : i < 0x810 := List.mem_range.mp hi
      rw [show 0x00 + i = i from by omega, ← mode1_low hi2])
  rw [hv, hmap]

theorem mode1_parityP {addr data : List Nat} {major : Nat} (hmaj : major < 86) :
    mode1Sector addr data (0x81C + major) =
      (paritySpecOut (fun i => mode1Sector addr data (0x00C + i)) (86 * 24) 86
        ((major / 2) * 2 + major % 2) 24).1 ∧
    mode1Sector addr data (0x81C + major + 86) =
      (paritySpecOut (fun i => mode1Sector addr data (0x00C + i)) (86 * 24) 86
        ((major / 2) * 2 + major % 2) 24).2 := by
  have hp := @ecc_generate_false_P (setRange (edc_computeblock
      (copyBytes (copyBytes (upd blankSector 0x0F 0x01) 0x00C addr) 0x010 data)
      0x00 0x810 0x810) 0x814 8 0) major hmaj
  have hcongr := @paritySpecOut_congr
    (fun i => setRange (edc_computeblock
      (copyBytes (copyBytes (upd blankSector 0x0F 0x01) 0x00C addr) 0x010 data)
      0x00 0x810 0x810) 0x814 8 0 (0x00C + i))
    (fun i => ecc_generate (setRange (edc_computeblock
      (copyBytes (copyBytes (upd blankSector 0x0F 0x01) 0x00C addr) 0x010 data)
      0x00 0x810 0x810) 0x814 8 0) false (0x00C + i))
    (86 * 24) 86 ((major / 2) * 2 + major % 2)
    (by norm_num)
    (fun i hi => (ecc_generate_false_frame (by omega)).symm) 24
  rw [mode1Sector_eq]
  exact ⟨hp.1.trans (congrArg Prod.fst hcongr), hp.2.trans (congrArg Prod.snd hcongr)⟩

theorem mode1_parityQ {addr data : List Nat} {major : Nat} (hmaj : major < 52) :
    mode1Sector addr data (0x8C8 + major) =
      (paritySpecOut (fun i => mode1Sector addr data (0x00C + i)) (52 * 43) 88
        ((major / 2) * 86 + major % 2) 43).1 ∧
    mode1Sector addr data (0x8C8 + major + 52) =
      (paritySpecOut (fun i => mode1Sector addr data (0x00C + i)) (52 * 43) 88
        ((major / 2) * 86 + major % 2) 43).2 := by
  have hq := @ecc_generate_false_Q (setRange (edc_computeblock
      (copyBytes (copyBytes (upd blankSector 0x0F 0x01) 0x00C addr) 0x010 data)
      0x00 0x810 0x810) 0x814 8 0) major hmaj
  rw [mode1Sector_eq]
  exact hq

theorem reconstructSector_one_inv {input emitted rest : List Nat}
    (h : reconstructSector 1 input = .ok (emitted, rest)) :
    emitted = (List.range 2352).map
      (mode1Sector (input.take 3) ((input.drop 3).take 0x800)) ∧
    rest = (input.drop 3).drop 0x800 := by
  rw [reconstructSector, if_pos rfl] at h
  split at h
  · exact absurd h (by simp)
  · split at h
    · exact absurd h (by simp)
    · simp only [Except.ok.injEq, Prod.mk.injEq] at h
      exact ⟨h.1.symm, h.2.symm⟩

/-! ## Claim C1: Mode 1 sector reconstruction -/

/-- C1: every Mode 1 repetition emits a 2352-byte sector with the sync
pattern at `0x000`-`0x00B`, mode byte `0x01` at `0x00F`, the 3 input address
bytes at `0x00C`, the 2048 input data bytes at `0x010`, the little-endian
checksum of bytes `[0x000, 0x810)` at `0x810`-`0x813`, zeros at
`0x814`-`0x81B`, and P/Q parity at `0x81C`/`0x8C8` computed over the sector
with the address bytes left in place; the running output checksum is
accumulated over all 2352 emitted bytes. -/
theorem claim_C1 :
    (∀ addr data : List Nat, addr.length = 3 → data.length = 2048 →
      Mode1SpecAt (mode1Sector addr data) addr data) ∧
    (∀ (acc : Nat) (input emitted rest : List Nat),
      reconstructSector 1 input = .ok (emitted, rest) →
      emitted = (List.range 2352).map
        (mode1Sector (input.take 3) ((input.drop 3).take 0x800)) ∧
      emitted.length = 2352 ∧
      processSectors 1 1 acc input =
        .ok (emitted, edc_partial_computeblock acc emitted, rest)) := by
  constructor
  · intro addr data ha hd
    refine ⟨?_, ?_, ?_, ?_, ?_, ?_, ?_, ?_, ?_, ?_⟩
    · rw [mode1_low (by norm_num), mode1_base_low ha (by norm_num), blankSector_zero]
    · intro k h1 h2
      rw [mode1_low (by omega), mode1_base_low ha (by omega)]
      exact blankSector_ff h1 h2
    · rw [mode1_low (by norm_num), mode1_base_low ha (by norm_num), blankSector_eleven]
    · rw [mode1_low (by norm_num)]
      exact mode1_base_modebyte ha
    · intro j hj
      rw [mode1_low (by omega)]
      exact mode1_base_addr ha hj
    · intro j hj
      rw [mode1_low (by omega)]
      exact mode1_base_data hd hj
    · intro j hj
      exact mode1_edc hj
    · intro j h1 h2
      rw [mode1Sector_eq, ecc_generate_false_frame (by omega),
        setRange_in _ _ h1 (by omega)]
    · intro major hmaj
      exact mode1_parityP hmaj
    · intro major hmaj
      exact mode1_parityQ hmaj
  · intro acc input emitted rest h
    obtain ⟨hemit, hrest⟩ := reconstructSector_one_inv h
    refine ⟨hemit, ?_, ?_⟩
    · rw [hemit]
      simp
    · rw [processSectors_one, h]

theorem claim_C1_witness :
    (([0, 2, 22] : List Nat).length = 3 ∧
     (List.replicate 2048 (0 : Nat)).length = 2048 ∧
     Mode1SpecAt (mode1Sector [0, 2, 22] (List.replicate 2048 0)) [0, 2, 22]
       (List.replicate 2048 0)) ∧
    (reconstructSector 1 (List.replicate 2051 (0 : Nat)) =
       .ok ((List.range 2352).map
           (mode1Sector ((List.replicate 2051 (0 : Nat)).take 3)
             (((List.replicate 2051 (0 : Nat)).drop 3).take 0x800)),
         ((List.replicate 2051 (0 : Nat)).drop 3).drop 0x800) ∧
     (List.range 2352).map
         (mode1Sector ((List.replicate 2051 (0 : Nat)).take 3)
           (((List.replicate 2051 (0 : Nat)).drop 3).take 0x800)) =
       (List.range 2352).map
         (mode1Sector ((List.replicate 2051 (0 : Nat)).take 3)
           (((List.replicate 2051 (0 : Nat)).drop 3).take 0x800)) ∧
     ((List.range 2352).map
         (mode1Sector ((List.replicate 2051 (0 : Nat)).take 3)
           (((List.replicate 2051 (0 : Nat)).drop 3).take 0x800))).length = 2352 ∧
     processSectors 1 1 0 (List.replicate 2051 (0 : Nat)) =
       .ok ((List.range 2352).map
           (mode1Sector ((List.replicate 2051 (0 : Nat)).take 3)
             (((List.replicate 2051 (0 : Nat)).drop 3).take 0x800)),
         edc_partial_computeblock 0
           ((List.range 2352).map
             (mode1Sector ((List.replicate 2051 (0 : Nat)).take 3)
               (((List.replicate 2051 (0 : Nat)).drop 3).take 0x800))),
         ((List.replicate 2051 (0 : Nat)).drop 3).drop 0x800)) :=
  ⟨⟨by simp, by simp, claim_C1.1 [0, 2, 22] (List.replicate 2048 0) (by simp) (by simp)⟩,
   by
    have hrec : reconstructSector 1 (List.replicate 2051 (0 : Nat)) =
        .ok ((List.range 2352).map
            (mode1Sector ((List.replicate 2051 (0 : Nat)).take 3)
              (((List.replicate 2051 (0 : Nat)).drop 3).take 0x800)),
          ((List.replicate 2051 (0 : Nat)).drop 3).drop 0x800) := by
      rw [reconstructSector, if_pos rfl, if_neg (by simp), if_neg (by simp)]
    have h := claim_C1.2 0 (List.replicate 2051 (0 : Nat))
      ((List.range 2352).map
        (mode1Sector ((List.replicate 2051 (0 : Nat)).take 3)
          (((List.replicate 2051 (0 : Nat)).drop 3).take 0x800)))
      (((List.replicate 2051 (0 : Nat)).drop 3).drop 0x800) hrec
    exact ⟨hrec, rfl, h.2.1, h.2.2⟩⟩

/-! ## Mode 2 Form 2 reconstruction lemmas -/

theorem mode2form2Sector_eq (payload : List Nat) :
    mode2form2Sector payload = edc_computeblock (mode2Base payload) 0x10 0x91C 0x92C :=
  rfl

theorem mode2form2_frame {payload : List Nat} {k : Nat} (hk : k < 0x92C ∨ 0x930 ≤ k) :
    mode2form2Sector payload k = mode2Base payload k := by
  rw [mode2form2Sector_eq]
  exact edc_computeblock_frame (by omega) (by omega) (by omega) (by omega)

theorem mode2Base_data {payload : List Nat} {j : Nat} (hp : payload.length = 0x918)
    (hj : j < 2328) : mode2Base payload (0x14 + j) = payload.getD j 0 := by
  simp only [mode2Base]
  rw [upd_ne _ _ (by omega), upd_ne _ _ (by omega), upd_ne _ _ (by omega),
    upd_ne _ _ (by omega), copyBytes_in _ (by omega) (by rw [hp]; omega)]
  congr 1
  omega

theorem mode2Base_mirror {payload : List Nat} {j : Nat} (hp : payload.length = 0x918)
    (hj : j < 4) : mode2Base payload (0x10 + j) = payload.getD j 0 := by
  have hcb : ∀ i, i < 4 →
      copyBytes (upd blankSector 0x0F 0x02) 0x014 payload (0x14 + i) = payload.getD i 0 := by
    intro i hi
    rw [copyBytes_in _ (by omega) (by rw [hp]; omega)]
    congr 1
    omega
  simp only [mode2Base]
  interval_cases j
  · rw [upd_ne _ _ (by omega), upd_ne _ _ (by omega), upd_ne _ _ (by omega),
      show (0x10 : Nat) + 0 = 0x10 from rfl, upd_same]
    simpa using hcb 0 (by omega)
  · rw [upd_ne _ _ (by omega), upd_ne _ _ (by omega),
      show (0x10 : Nat) + 1 = 0x11 from rfl, upd_same, upd_ne _ _ (by omega)]
    simpa using hcb 1 (by omega)
  · rw [upd_ne _ _ (by omega), show (0x10 : Nat) + 2 = 0x12 from rfl, upd_same,
      upd_ne _ _ (by omega), upd_ne _ _ (by omega)]
    simpa using hcb 2 (by omega)
  · rw [show (0x10 : Nat) + 3 = 0x13 from rfl, upd_same, upd_ne _ _ (by omega),
      upd_ne _ _ (by omega), upd_ne _ _ (by omega)]
    simpa using hcb 3 (by omega)

theorem mode2form2_edc {payload : List Nat} {j : Nat} (hj : j < 4) :
    mode2form2Sector payload (0x92C + j) =
      edcByteLE (edc_partial_computeblock 0
        ((List.range 0x91C).map (fun i => mode2form2Sector payload (0x10 + i)))) j := by
  have hv : mode2form2Sector payload (0x92C + j) =
      edcByteLE (edc_partial_computeblock 0
        ((List.range 0x91C).map (fun i => mode2Base payload (0x10 + i)))) j := by
    rw [mode2form2Sector_eq]
    exact edc_computeblock_val hj
  have hmap : (List.range 0x91C).map (fun i => mode2Base payload (0x10 + i)) =
      (List.range 0x91C).map (fun i => mode2form2Sector payload (0x10 + i)) :=
    List.map_congr_left (fun i hi => by
      have hi2 : i < 0x91C := List.mem_range.mp hi
      rw [mode2form2_frame (Or.inl (by omega))])
  rw [hv, hmap]

theorem reconstructSector_three_inv {input emitted rest : List Nat}
    (h : reconstructSector 3 input = .ok (emitted, rest)) :
    emitted = (List.range 2336).map (fun i => mode2form2Sector (input.take 0x918) (0x10 + i)) ∧
    rest = input.drop 0x918 := by
  rw [reconstructSector, if_neg (by norm_num), if_neg (by norm_num), if_pos rfl] at h
  split at h
  · exact absurd h (by simp)
  · simp only [Except.ok.injEq, Prod.mk.injEq] at h
    exact ⟨h.1.symm, h.2.symm⟩

/-! ## Claim C8: Mode 2 Form 2 sector reconstruction -/

/-- C8: every Mode 2 Form 2 repetition mirrors the 4-byte subheader at
`0x10` and `0x14`, stores the 2328 payload bytes at `0x14`, writes the
little-endian EDC over `[0x10, 0x92C)` at `0x92C`, changes nothing else
(in particular computes no P/Q parity), emits the last 2336 bytes of the
sector buffer, and accumulates the output checksum over those bytes. -/
theorem claim_C8 :
    (∀ payload : List Nat, payload.length = 0x918 →
      Mode2Form2SpecAt (mode2form2Sector payload) payload) ∧
    (∀ (acc : Nat) (input emitted rest : List Nat),
      reconstructSector 3 input = .ok (emitted, rest) →
      emitted = (List.range 2336).map
        (fun i => mode2form2Sector (input.take 0x918) (0x10 + i)) ∧
      emitted.length = 2336 ∧
      processSectors 3 1 acc input =
        .ok (emitted, edc_partial_computeblock acc emitted, rest)) := by
  constructor
  · intro payload hp
    refine ⟨?_, ?_, ?_, ?_⟩
    · intro j hj
      constructor
      · rw [mode2form2_frame (Or.inl (by omega))]
        exact mode2Base_mirror hp hj
      · rw [mode2form2_frame (Or.inl (by omega))]
        exact mode2Base_data hp (by omega)
    · intro j hj
      rw [mode2form2_frame (Or.inl (by omega))]
      exact mode2Base_data hp hj
    · intro j hj
      exact mode2form2_edc hj
    · intro k hk
      exact mode2form2_frame hk
  · intro acc input emitted rest h
    obtain ⟨hemit, hrest⟩ := reconstructSector_three_inv h
    refine ⟨hemit, ?_, ?_⟩
    · rw [hemit]
      simp
    · rw [processSectors_one, h]

theorem claim_C8_witness :
    ((List.replicate 0x918 (3 : Nat)).length = 0x918 ∧
     Mode2Form2SpecAt (mode2form2Sector (List.replicate 0x918 3))
       (List.replicate 0x918 3)) ∧
    (reconstructSector 3 (List.replicate 0x918 (3 : Nat)) =
       .ok ((List.range 2336).map
           (fun i => mode2form2Sector ((List.replicate 0x918 (3 : Nat)).take 0x918) (0x10 + i)),
         (List.replicate 0x918 (3 : Nat)).drop 0x918) ∧
     processSectors 3 1 0 (List.replicate 0x918 (3 : Nat)) =
       .ok ((List.range 2336).map
           (fun i => mode2form2Sector ((List.replicate 0x918 (3 : Nat)).take 0x918) (0x10 + i)),
         edc_partial_computeblock 0
           ((List.range 2336).map
             (fun i => mode2form2Sector ((List.replicate 0x918 (3 : Nat)).take 0x918) (0x10 + i))),
         (List.replicate 0x918 (3 : Nat)).drop 0x918)) :=
  ⟨⟨by simp, claim_C8.1 (List.replicate 0x918 3) (by simp)⟩,
   by
    have hrec : reconstructSector 3 (List.replicate 0x918 (3 : Nat)) =
        .ok ((List.range 2336).map
            (fun i => mode2form2Sector ((List.replicate 0x918 (3 : Nat)).take 0x918)
              (0x10 + i)),
          (List.replicate 0x918 (3 : Nat)).drop 0x918) := by
      rw [reconstructSector, if_neg (by norm_num), if_neg (by norm_num), if_pos rfl,
        if_neg (by simp)]
    have h := claim_C8.2 0 (List.replicate 0x918 (3 : Nat))
      ((List.range 2336).map
        (fun i => mode2form2Sector ((List.replicate 0x918 (3 : Nat)).take 0x918) (0x10 + i)))
      ((List.replicate 0x918 (3 : Nat)).drop 0x918) hrec
    exact ⟨hrec, h.2.2⟩⟩

/-! ## Chunk-header decoding lemmas -/

theorem decodeNumLoop_done {c : Nat} (num bits : Nat) (input : List Nat)
    (h : c &&& 0x80 = 0) : decodeNumLoop c num bits input = some (num, input) := by
  rw [decodeNumLoop.eq_def]
  dsimp only
  rw [if_pos h]

theorem decodeNumLoop_chain : ∀ (bs : List Nat) {c : Nat} (num bits : Nat)
    (rest : List Nat), c &&& 0x80 ≠ 0 → contChain bs = true →
    decodeNumLoop c num bits (bs ++ rest) = some (num ||| contBits bs bits, rest) := by
  intro bs
  induction bs with
  | nil =>
    intro c num bits rest hc hch
    simp [contChain] at hch
  | cons b bs ih =>
    intro c num bits rest hc hch
    rw [List.cons_append, decodeNumLoop.eq_def]
    dsimp only
    rw [if_neg hc]
    by_cases hbs : bs.isEmpty
    · have hbsnil : bs = [] := List.isEmpty_iff.mp hbs
      subst hbsnil
      have hb : b &&& 0x80 = 0 := by
        rw [contChain] at hch
        simpa using hch
      rw [List.nil_append, decodeNumLoop_done _ _ _ hb]
      simp [contBits]
    · have hch2 : ((b &&& 0x80 != 0) && contChain bs) = true := by
        rw [contChain, if_neg (by simpa using hbs)] at hch
        exact hch
      simp only [Bool.and_eq_true, bne_iff_ne, ne_eq] at hch2
      obtain ⟨hb2, hbs2⟩ := hch2
      rw [ih (num ||| ((b &&& 0x7F) <<< bits)) (bits + 7) rest hb2 hbs2, contBits,
        Nat.or_assoc]

theorem decodeHeader_nocont {c : Nat} (rest : List Nat) (h : c &&& 0x80 = 0) :
    decodeHeader (c :: rest) = some (c &&& 3, (c >>> 2) &&& 0x1F, rest) := by
  rw [decodeHeader, decodeNumLoop_done _ _ _ h]

theorem decodeHeader_cont {c : Nat} (bs rest : List Nat) (hc : c &&& 0x80 ≠ 0)
    (hch : contChain bs = true) :
    decodeHeader (c :: (bs ++ rest)) =
      some (c &&& 3, ((c >>> 2) &&& 0x1F) ||| contBits bs 5, rest) := by
  rw [decodeHeader, decodeNumLoop_chain bs _ _ rest hc hch]

/-! ## Chunk-loop step lemmas -/

theorem decodeChunks_sentinel {acc type num : Nat} {input rest : List Nat}
    (h : decodeHeader input = some (type, num, rest)) (hs : num = 0xFFFFFFFF) :
    decodeChunks acc input = .ok ([], acc, rest) := by
  rw [decodeChunks, h]
  simp [hs]

theorem decodeChunks_toolong {acc type num : Nat} {input rest : List Nat}
    (h : decodeHeader input = some (type, num, rest)) (hs : num ≠ 0xFFFFFFFF)
    (hb : 0x8000000000000000 ≤ num + 1) :
    decodeChunks acc input = .error .InvalidChunkLength := by
  rw [decodeChunks, h]
  dsimp only
  rw [if_neg hs, if_pos hb]

theorem decodeChunks_lit1 {acc b c2 : Nat} {rest out r2 : List Nat}
    (h : decodeChunks (edcPartialStep acc b) rest = .ok (out, c2, r2)) :
    decodeChunks acc (0x00 :: b :: rest) = .ok (b :: out, c2, r2) := by
  have hh : decodeHeader (0x00 :: b :: rest) = some (0, 0, b :: rest) :=
    decodeHeader_nocont _ rfl
  rw [decodeChunks, hh]
  dsimp only
  rw [if_neg (by norm_num), if_neg (by norm_num), if_pos rfl,
    show (0 : Nat) + 1 = 1 from rfl, processLiteral_one]
  dsimp only
  rw [h]
  rfl

/-! ## Claim C2: chunk-header decoding and dispatch -/

/-- C2: the chunk header is one byte whose low 2 bits are the type and bits
2-6 the low 5 count bits; while the most recent byte has its top bit set,
each further byte contributes its low 7 bits at offsets 5, 12, 19, ….
Header byte `0x00` decodes to a literal of true count 1. Raw count
`0xFFFFFFFF` is the end-of-stream sentinel (no increment, no dispatch); any
other raw count is incremented, and an incremented count at or above `2^63`
fails with `InvalidChunkLength`. -/
theorem claim_C2 :
    (∀ (c : Nat) (rest : List Nat), c &&& 0x80 = 0 →
      decodeHeader (c :: rest) = some (c &&& 3, (c >>> 2) &&& 0x1F, rest)) ∧
    (∀ (c : Nat) (bs rest : List Nat), c &&& 0x80 ≠ 0 → contChain bs = true →
      decodeHeader (c :: (bs ++ rest)) =
        some (c &&& 3, ((c >>> 2) &&& 0x1F) ||| contBits bs 5, rest)) ∧
    (∀ rest : List Nat, decodeHeader (0x00 :: rest) = some (0, 0, rest)) ∧
    (∀ (acc b c2 : Nat) (rest out r2 : List Nat),
      decodeChunks (edcPartialStep acc b) rest = .ok (out, c2, r2) →
      decodeChunks acc (0x00 :: b :: rest) = .ok (b :: out, c2, r2)) ∧
    (∀ (acc : Nat) (input : List Nat) (type num : Nat) (rest : List Nat),
      decodeHeader input = some (type, num, rest) →
      (num = 0xFFFFFFFF → decodeChunks acc input = .ok ([], acc, rest)) ∧
      (num ≠ 0xFFFFFFFF → 0x8000000000000000 ≤ num + 1 →
        decodeChunks acc input = .error .InvalidChunkLength)) := by
  refine ⟨fun c rest h => decodeHeader_nocont rest h,
    fun c bs rest hc hch => decodeHeader_cont bs rest hc hch,
    fun rest => decodeHeader_nocont rest rfl,
    fun acc b c2 rest out r2 h => decodeChunks_lit1 h,
    fun acc input type num rest h =>
      ⟨fun hs => decodeChunks_sentinel h hs,
       fun hs hb => decodeChunks_toolong h hs hb⟩⟩

theorem claim_C2_witness :
    ((0x04 : Nat) &&& 0x80 = 0 ∧
     decodeHeader (0x04 :: [7]) = some (0x04 &&& 3, (0x04 >>> 2) &&& 0x1F, [7])) ∧
    ((0x84 : Nat) &&& 0x80 ≠ 0 ∧ contChain [0x81, 0x02] = true ∧
     decodeHeader (0x84 :: ([0x81, 0x02] ++ [9])) =
       some (0x84 &&& 3, ((0x84 >>> 2) &&& 0x1F) ||| contBits [0x81, 0x02] 5, [9])) ∧
    decodeHeader (0x00 :: [5]) = some (0, 0, [5]) ∧
    (decodeChunks (edcPartialStep 0 0xAB) [0xFF, 0xFF, 0xFF, 0xFF, 0x3F] =
       .ok ([], edcPartialStep 0 0xAB, []) ∧
     decodeChunks 0 (0x00 :: 0xAB :: [0xFF, 0xFF, 0xFF, 0xFF, 0x3F]) =
       .ok (0xAB :: [], edcPartialStep 0 0xAB, [])) ∧
    (decodeHeader [0xFF, 0xFF, 0xFF, 0xFF, 0x3F] = some (3, 0xFFFFFFFF, []) ∧
     decodeChunks 7 [0xFF, 0xFF, 0xFF, 0xFF, 0x3F] = .ok ([], 7, [])) ∧
    (decodeHeader [0xFF, 0xFF, 0xFF, 0xFF, 0xFF, 0xFF, 0xFF, 0xFF, 0xFF, 0x7F] =
       some (3, 0xFFFFFFFFFFFFFFFFF, []) ∧
     (0xFFFFFFFFFFFFFFFFF : Nat) ≠ 0xFFFFFFFF ∧
     (0x8000000000000000 : Nat) ≤ 0xFFFFFFFFFFFFFFFFF + 1 ∧
     decodeChunks 0 [0xFF, 0xFF, 0xFF, 0xFF, 0xFF, 0xFF, 0xFF, 0xFF, 0xFF, 0x7F] =
       .error .InvalidChunkLength) := by
  have hlit : decodeChunks (edcPartialStep 0 0xAB) [0xFF, 0xFF, 0xFF, 0xFF, 0x3F] =
      .ok ([], edcPartialStep 0 0xAB, []) :=
    (claim_C2.2.2.2.2 (edcPartialStep 0 0xAB) [0xFF, 0xFF, 0xFF, 0xFF, 0x3F]
      3 0xFFFFFFFF [] (by decide)).1 rfl
  have hbig : decodeHeader [0xFF, 0xFF, 0xFF, 0xFF, 0xFF, 0xFF, 0xFF, 0xFF, 0xFF, 0x7F] =
      some (3, 0xFFFFFFFFFFFFFFFFF, []) := by decide
  refine ⟨⟨by decide, claim_C2.1 0x04 [7] (by decide)⟩,
    ⟨by decide, by decide, claim_C2.2.1 0x84 [0x81, 0x02] [9] (by decide) (by decide)⟩,
    claim_C2.2.2.1 [5],
    ⟨hlit, claim_C2.2.2.2.1 0 0xAB (edcPartialStep 0 0xAB)
      [0xFF, 0xFF, 0xFF, 0xFF, 0x3F] [] [] hlit⟩,
    ⟨by decide, (claim_C2.2.2.2.2 7 [0xFF, 0xFF, 0xFF, 0xFF, 0x3F]
      3 0xFFFFFFFF [] (by decide)).1 rfl⟩,
    ⟨hbig, by decide, by decide,
      (claim_C2.2.2.2.2 0 [0xFF, 0xFF, 0xFF, 0xFF, 0xFF, 0xFF, 0xFF, 0xFF, 0xFF, 0x7F]
        3 0xFFFFFFFFFFFFFFFFF [] hbig).2 (by decide) (by decide)⟩⟩

/-! ## Trailer verification lemmas -/

theorem unecmify_eq (body : List Nat) :
    unecmify (0x45 :: 0x43 :: 0x4D :: 0x00 :: body) =
      match decodeChunks 0 body with
      | .error e => .error e
      | .ok (out, checkedc, rest2) =>
        match checkTrailer checkedc rest2 with
        | .error e => .error e
        | .ok _ => .ok out :=
  rfl

theorem checkTrailer_short {c : Nat} {t : List Nat} (h : t.length < 4) :
    checkTrailer c t = .error .UnexpectedEndOfStream := by
  match t with
  | [] => rfl
  | [a] => rfl
  | [a, b] => rfl
  | [a, b, d] => rfl
  | a :: b :: d :: e :: r => exact absurd h (by simp)

theorem checkTrailer_cons (c t0 t1 t2 t3 : Nat) (r : List Nat) :
    checkTrailer c (t0 :: t1 :: t2 :: t3 :: r) =
      if t0 = c &&& 0xFF ∧ t1 = (c >>> 8) &&& 0xFF ∧ t2 = (c >>> 16) &&& 0xFF ∧
         t3 = (c >>> 24) &&& 0xFF
      then .ok () else .error .ChecksumMismatch :=
  rfl

/-! ## Claim C5: trailer read and checksum comparison -/

/-- C5: after the sentinel, the decoder reads exactly 4 trailer bytes (end
of input before that is `UnexpectedEndOfStream`) and compares them
little-endian against the accumulated output checksum; the decode succeeds
exactly when all four agree, any disagreement — in particular flipping any
single trailer byte of an otherwise-valid stream — is `ChecksumMismatch`.
The hypothesis says that `chunks` is a sentinel-terminated chunk sequence
decoding to output `out` with accumulated checksum `c`, whatever follows
it. -/
theorem claim_C5 : ∀ (chunks out : List Nat) (c : Nat),
    (∀ r : List Nat, decodeChunks 0 (chunks ++ r) = .ok (out, c, r)) →
    (∀ t : List Nat, t.length < 4 →
      unecmify (0x45 :: 0x43 :: 0x4D :: 0x00 :: (chunks ++ t)) =
        .error .UnexpectedEndOfStream) ∧
    (∀ t0 t1 t2 t3 : Nat, ∀ r : List Nat,
      (unecmify (0x45 :: 0x43 :: 0x4D :: 0x00 :: (chunks ++ t0 :: t1 :: t2 :: t3 :: r)) =
          .ok out ↔
        (t0 = c &&& 0xFF ∧ t1 = (c >>> 8) &&& 0xFF ∧ t2 = (c >>> 16) &&& 0xFF ∧
         t3 = (c >>> 24) &&& 0xFF)) ∧
      (¬(t0 = c &&& 0xFF ∧ t1 = (c >>> 8) &&& 0xFF ∧ t2 = (c >>> 16) &&& 0xFF ∧
          t3 = (c >>> 24) &&& 0xFF) →
        unecmify (0x45 :: 0x43 :: 0x4D :: 0x00 :: (chunks ++ t0 :: t1 :: t2 :: t3 :: r)) =
          .error .ChecksumMismatch)) ∧
    (∀ j b2 : Nat, j < 4 → b2 ≠ (trailerBytes c).getD j 0 → ∀ r : List Nat,
      unecmify (0x45 :: 0x43 :: 0x4D :: 0x00 :: (chunks ++ ((trailerBytes c).set j b2 ++ r))) =
        .error .ChecksumMismatch) := by
  intro chunks out c hstream
  have hmm : ∀ (t0 t1 t2 t3 : Nat) (r : List Nat),
      ¬(t0 = c &&& 0xFF ∧ t1 = (c >>> 8) &&& 0xFF ∧ t2 = (c >>> 16) &&& 0xFF ∧
        t3 = (c >>> 24) &&& 0xFF) →
      unecmify (0x45 :: 0x43 :: 0x4D :: 0x00 :: (chunks ++ t0 :: t1 :: t2 :: t3 :: r)) =
        .error .ChecksumMismatch := by
    intro t0 t1 t2 t3 r hcond
    rw [unecmify_eq, hstream _]
    dsimp only
    rw [checkTrailer_cons, if_neg hcond]
  refine ⟨?_, ?_, ?_⟩
  · intro t ht
    rw [unecmify_eq, hstream t]
    dsimp only
    rw [checkTrailer_short ht]
  · intro t0 t1 t2 t3 r
    constructor
    · by_cases hcond : (t0 = c &&& 0xFF ∧ t1 = (c >>> 8) &&& 0xFF ∧
          t2 = (c >>> 16) &&& 0xFF ∧ t3 = (c >>> 24) &&& 0xFF)
      · rw [unecmify_eq, hstream _]
        dsimp only
        rw [checkTrailer_cons, if_pos hcond]
        simp [hcond]
      · rw [hmm t0 t1 t2 t3 r hcond]
        simp [hcond]
    · exact hmm t0 t1 t2 t3 r
  · intro j b2 hj hb2 r
    interval_cases j
    · have hset : (trailerBytes c).set 0 b2 ++ r =
          b2 :: ((c >>> 8) &&& 0xFF) :: ((c >>> 16) &&& 0xFF) :: ((c >>> 24) &&& 0xFF) :: r :=
        rfl
      rw [hset]
      exact hmm _ _ _ _ r (fun hcon => hb2 hcon.1)
    · have hset : (trailerBytes c).set 1 b2 ++ r =
          (c &&& 0xFF) :: b2 :: ((c >>> 16) &&& 0xFF) :: ((c >>> 24) &&& 0xFF) :: r :=
        rfl
      rw [hset]
      exact hmm _ _ _ _ r (fun hcon => hb2 hcon.2.1)
    · have hset : (trailerBytes c).set 2 b2 ++ r =
          (c &&& 0xFF) :: ((c >>> 8) &&& 0xFF) :: b2 :: ((c >>> 24) &&& 0xFF) :: r :=
        rfl
      rw [hset]
      exact hmm _ _ _ _ r (fun hcon => hb2 hcon.2.2.1)
    · have hset : (trailerBytes c).set 3 b2 ++ r =
          (c &&& 0xFF) :: ((c >>> 8) &&& 0xFF) :: ((c >>> 16) &&& 0xFF) :: b2 :: r :=
        rfl
      rw [hset]
      exact hmm _ _ _ _ r (fun hcon => hb2 hcon.2.2.2)

theorem claim_C5_witness :
    decodeChunks 0 ([0xFF, 0xFF, 0xFF, 0xFF, 0x3F] ++ [9]) = .ok ([], 0, [9]) ∧
    unecmify (0x45 :: 0x43 :: 0x4D :: 0x00 :: ([0xFF, 0xFF, 0xFF, 0xFF, 0x3F] ++ [1, 2])) =
      .error .UnexpectedEndOfStream ∧
    (unecmify (0x45 :: 0x43 :: 0x4D :: 0x00 ::
        ([0xFF, 0xFF, 0xFF, 0xFF, 0x3F] ++ 0 :: 0 :: 0 :: 0 :: [])) = .ok [] ↔
      ((0 : Nat) = 0 &&& 0xFF ∧ (0 : Nat) = (0 >>> 8) &&& 0xFF ∧
       (0 : Nat) = (0 >>> 16) &&& 0xFF ∧ (0 : Nat) = (0 >>> 24) &&& 0xFF)) ∧
    unecmify (0x45 :: 0x43 :: 0x4D :: 0x00 ::
        ([0xFF, 0xFF, 0xFF, 0xFF, 0x3F] ++ ((trailerBytes 0).set 0 1 ++ []))) =
      .error .ChecksumMismatch := by
  have hstream : ∀ r : List Nat,
      decodeChunks 0 ([0xFF, 0xFF, 0xFF, 0xFF, 0x3F] ++ r) = .ok ([], 0, r) := fun r =>
    decodeChunks_sentinel
      (@decodeHeader_cont 0xFF [0xFF, 0xFF, 0xFF, 0x3F] r (by decide) (by decide))
      (by decide)
  have h := claim_C5 [0xFF, 0xFF, 0xFF, 0xFF, 0x3F] [] 0 hstream
  exact ⟨hstream [9], h.1 [1, 2] (by decide), (h.2.1 0 0 0 0 []).1,
    h.2.2 0 1 (by decide) (by decide) []⟩

end Unecm
